import Mathlib

/-!
Shallow embedding of the ConnectChain admin-server product/category slice:
the product filtering utility (`src/utils/product-filtering.js`), the product
service (`products.service.js`), the product response mapper
(`products.controller.js`), the categories service (`categories.service.js`)
and the Joi validation layer for product updates (`products.validation.js`
plus the validation middleware), together with theorems about the claims
made by the specification.

Modelling conventions:
* machine numbers are `Rat` (JS doubles in the exercised range are exact);
  `NaN` and non-finite results are modelled as `none`;
* SQL `NULL` is `Option.none`; timestamp columns are omitted (no property
  mentions them); external media storage (Cloudinary) has no effect on the
  database state and is modelled only through the list of URLs an upload
  would produce;
* the Prisma client semantics are embedded directly: `update` with a
  `where` that matches no row throws (error P2025, here `recordNotFound`),
  `updateMany`/`findMany`/`findUnique`/`count`/`create`/`createMany` never
  throw for the shapes used here; `$transaction` is all-or-nothing: an
  error inside it leaves the database unchanged.
-/

set_option autoImplicit false

namespace AdminServer

/-- A JavaScript value that may arrive either as a number or as a string
(multipart form bodies send strings, JSON bodies send numbers). -/
inductive JVal where
  | num (q : Rat)
  | str (s : String)
deriving DecidableEq, Repr

/-- JS truthiness of a number value (`0` and `NaN` are falsy). -/
def jvalTruthyV : JVal → Bool
  | .num q => !(q == 0)
  | .str s => !(s == "")

/-- JS truthiness of an optional field holding a number-or-string. -/
def jvalTruthy : Option JVal → Bool
  | none => false
  | some v => jvalTruthyV v

/-- JS truthiness of an optional string field. -/
def strTruthy : Option String → Bool
  | none => false
  | some s => !(s == "")

/-- JS truthiness of an optional integer field. -/
def intTruthy : Option Int → Bool
  | none => false
  | some i => !(i == 0)

def isDigitChar (c : Char) : Bool := '0' ≤ c && c ≤ '9'

def isWsChar (c : Char) : Bool := c == ' ' || c == '\t' || c == '\n' || c == '\r'

def digitsToNat : List Char → Nat → Nat
  | [], acc => acc
  | c :: cs, acc => digitsToNat cs (acc * 10 + (c.toNat - '0'.toNat))

def dropSign : List Char → List Char
  | '+' :: r => r
  | '-' :: r => r
  | r => r

/-- Value of an exponent digit string, `none` when no digits are present. -/
def expDigitsVal (cs : List Char) : Option Nat :=
  let ds := cs.takeWhile isDigitChar
  if ds.isEmpty then none else some (digitsToNat ds 0)

def parseSignedExp : List Char → Int
  | '+' :: rest => ((expDigitsVal rest).map Int.ofNat).getD 0
  | '-' :: rest => ((expDigitsVal rest).map (fun n => -(n : Int))).getD 0
  | rest => ((expDigitsVal rest).map Int.ofNat).getD 0

/-- Exponent part of a JS float literal; an `e` not followed by digits is
ignored (contributes exponent 0), as in `parseFloat`. -/
def parseExponent : List Char → Int
  | 'e' :: rest => parseSignedExp rest
  | 'E' :: rest => parseSignedExp rest
  | _ => 0

def pow10 : Int → Rat
  | .ofNat n => (10 : Rat) ^ n
  | .negSucc n => 1 / (10 : Rat) ^ (n + 1)

/-- JavaScript `parseFloat`: longest numeric prefix after leading
whitespace; `none` models `NaN` (and the never-exercised infinities). -/
def parseFloatJS (s : String) : Option Rat :=
  let cs := s.toList.dropWhile isWsChar
  let sgn : Rat := match cs with | '-' :: _ => -1 | _ => 1
  let cs := dropSign cs
  let intDigits := cs.takeWhile isDigitChar
  let cs2 := cs.dropWhile isDigitChar
  let (fracDigits, cs3) :=
    match cs2 with
    | '.' :: rest => (rest.takeWhile isDigitChar, rest.dropWhile isDigitChar)
    | _ => ([], cs2)
  if intDigits.isEmpty && fracDigits.isEmpty then none
  else
    let mant : Rat :=
      (digitsToNat intDigits 0 : Nat) +
        (digitsToNat fracDigits 0 : Nat) / (10 : Rat) ^ fracDigits.length
    some (sgn * mant * pow10 (parseExponent cs3))

/-- JavaScript `parseInt` with radix 10: longest decimal digit prefix after
whitespace and sign; `none` models `NaN`. -/
def parseIntJS (s : String) : Option Int :=
  let cs := s.toList.dropWhile isWsChar
  let sgn : Int := match cs with | '-' :: _ => -1 | _ => 1
  let cs := dropSign cs
  let ds := cs.takeWhile isDigitChar
  if ds.isEmpty then none else some (sgn * (digitsToNat ds 0 : Nat))

/-- Truncation toward zero, the effect of JS `parseInt(String(n))` on an
ordinary finite number `n`. -/
def ratTrunc (q : Rat) : Int := if q < 0 then -((-q).floor) else q.floor

/-- JS `parseInt(v)` where `v` is a number-or-string value. -/
def parseIntOfJVal : JVal → Option Int
  | .num q => some (ratTrunc q)
  | .str s => parseIntJS s

/-! ## Database rows (Prisma model fields used by this slice) -/

structure ProductRow where
  ID : Int
  Name : Option String
  SKU : Option String
  Description : Option String
  Price : Option Rat
  Stock : Option Int
  MinimumStock : Option Int
  CategoryId : Option Int
  SupplierId : Option String
  CustomerId : Option String
  Deleted : Bool
deriving DecidableEq, Repr

structure ProductAttributeRow where
  ID : Int
  ProductId : Int
  Key : Option String
  Value : Option String
  Deleted : Bool
deriving DecidableEq, Repr

structure ProductVariantRow where
  ID : Int
  ProductId : Int
  Name : Option String
  Type' : Option String
  CustomPrice : Option Rat
  Stock : Option Int
  Deleted : Bool
deriving DecidableEq, Repr

structure ImageRow where
  ID : Int
  ProductId : Int
  Url : String
  Deleted : Bool
deriving DecidableEq, Repr

structure CategoryRow where
  ID : Int
  Name : String
  Description : Option String
  imageUrl : Option String
  Deleted : Bool
  CreatedDate : Int
  UpdatedDate : Int
deriving DecidableEq, Repr

structure SupplierRow where
  Id : String
deriving DecidableEq, Repr

/-- Database state: the tables touched by this slice, plus the
autoincrement counters for the child tables (Prisma assigns fresh,
strictly increasing identifiers on `create`/`createMany`). -/
structure DB where
  products : List ProductRow
  productAttribute : List ProductAttributeRow
  productVariant : List ProductVariantRow
  images : List ImageRow
  categories : List CategoryRow
  suppliers : List SupplierRow
  nextAttrId : Int
  nextVariantId : Int
  nextImageId : Int
deriving DecidableEq, Repr

/-! ## `src/utils/product-filtering.js` -/

/-- The filter argument accepted by `buildProductWhereClause`; absent
properties are `none`. -/
structure WhereFilters where
  search : Option String
  category : Option Int
  supplierId : Option String
  inStock : Option Bool
  deleted : Option Bool
deriving DecidableEq, Repr

def WhereFilters.empty : WhereFilters := ⟨none, none, none, none, none⟩

/-- One disjunct of the `OR` list of a product where-clause. -/
inductive OrCond where
  | nameContains (s : String)
  | skuContains (s : String)
  | stockLte (n : Int)
  | stockNull
deriving DecidableEq, Repr

/-- The Prisma where-clause object produced by `buildProductWhereClause`.
Top-level members are conjoined; `orConds` is the optional `OR` list.
Note that the base `Deleted: false` member is commented out in the source,
so no `Deleted` member ever appears here. -/
structure ProductWhere where
  orConds : Option (List OrCond)
  CategoryId : Option Int
  SupplierId : Option String
  stockGte : Option Int
deriving DecidableEq, Repr

/-- `buildProductWhereClause` from `src/utils/product-filtering.js`.
The `deleted` filter is destructured but (like the base clause) commented
out, so it has no effect. -/
def buildProductWhereClause (filters : WhereFilters) : ProductWhere :=
  let w0 : ProductWhere := ⟨none, none, none, none⟩
  let w1 :=
    match filters.search with
    | some s => if !(s == "") && !(s.trim == "") then
        { w0 with orConds := some [.nameContains s.trim, .skuContains s.trim] }
      else w0
    | none => w0
  let w2 :=
    match filters.category with
    | some c => if !(c == 0) then { w1 with CategoryId := some c } else w1
    | none => w1
  let w3 :=
    match filters.supplierId with
    | some sid => if !(sid == "") then { w2 with SupplierId := some sid } else w2
    | none => w2
  match filters.inStock with
  | none => w3
  | some b =>
    if b then { w3 with stockGte := some 0 }
    else { w3 with orConds := some ((w3.orConds.getD []) ++ [.stockLte 0, .stockNull]) }

def lowerChars (s : String) : List Char := s.toList.map Char.toLower

/-- Whether `xs` occurs as a contiguous run inside `ys`. -/
def isInfixOfB (xs : List Char) : List Char → Bool
  | [] => xs.isEmpty
  | y :: ys => xs.isPrefixOf (y :: ys) || isInfixOfB xs ys

/-- Case-insensitive `contains` on a nullable column (SQL `NULL` never
matches a `LIKE`). -/
def containsInsensitive (hay : Option String) (needle : String) : Bool :=
  match hay with
  | none => false
  | some h => isInfixOfB (lowerChars needle) (lowerChars h)

def evalOrCond (p : ProductRow) : OrCond → Bool
  | .nameContains s => containsInsensitive p.Name s
  | .skuContains s => containsInsensitive p.SKU s
  | .stockLte n => match p.Stock with | some v => decide (v ≤ n) | none => false
  | .stockNull => p.Stock == none

/-- Evaluation of the `Stock: { gte: n }` member (a `NULL` stock never
satisfies a comparison). -/
def evalStockGte (g : Option Int) (p : ProductRow) : Bool :=
  match g with
  | none => true
  | some n => match p.Stock with | some v => decide (n ≤ v) | none => false

/-- Whether a product row satisfies a where-clause (Prisma/SQL semantics:
top-level members conjoined, `OR` list disjoined). -/
def evalProductWhere (w : ProductWhere) (p : ProductRow) : Bool :=
  (match w.orConds with | none => true | some l => l.any (evalOrCond p)) &&
  (match w.CategoryId with | none => true | some c => p.CategoryId == some c) &&
  (match w.SupplierId with | none => true | some s => p.SupplierId == some s) &&
  evalStockGte w.stockGte p

/-- `mapSortField` from `src/utils/product-filtering.js`. -/
def mapSortField (sortField : String) : String :=
  if sortField == "name" then "Name"
  else if sortField == "sku" then "SKU"
  else if sortField == "price" then "Price"
  else if sortField == "stock" then "Stock"
  else if sortField == "createdAt" then "CreatedDate"
  else if sortField == "updatedAt" then "UpdatedDate"
  else "CreatedDate"

/-- A Prisma `orderBy` object `{ [field]: direction }`. -/
structure OrderBy where
  field : String
  direction : String
deriving DecidableEq, Repr

/-- `buildProductOrderBy` from `src/utils/product-filtering.js`. -/
def buildProductOrderBy (sort order : String) : OrderBy :=
  ⟨mapSortField sort, order⟩

/-- Math.ceil(total / limit) for a non-negative total and positive limit
(the validated range); Nat division by zero yields 0 where JS would give
Infinity, a case no endpoint reaches. -/
def ceilDivNat (total limit : Nat) : Nat := (total + limit - 1) / limit

structure Pagination where
  page : Int
  limit : Int
  total : Nat
  totalPages : Nat
  hasNext : Bool
  hasPrev : Bool
deriving DecidableEq, Repr

/-- `calculatePagination` from `src/utils/product-filtering.js`. -/
def calculatePagination (page limit : Int) (total : Nat) : Pagination :=
  let totalPages := ceilDivNat total limit.toNat
  { page := page, limit := limit, total := total, totalPages := totalPages,
    hasNext := decide (page < (totalPages : Int)), hasPrev := decide (page > 1) }

/-- `getCategoryProductCount` from `src/utils/product-filtering.js`:
`prisma.products.count` with the shared where-clause builder, the
`category` filter overriding any category in `additionalFilters`. -/
def getCategoryProductCount (db : DB) (categoryId : Int)
    (additionalFilters : WhereFilters) : Nat :=
  let whereClause :=
    buildProductWhereClause { additionalFilters with category := some categoryId }
  (db.products.filter (evalProductWhere whereClause)).length

/-! ## `products.service.js`: read paths -/

/-- The filters object the products controller passes to
`getProductsService`. -/
structure ListFilters where
  page : Int
  limit : Int
  search : Option String
  category : Option Int
  supplierId : Option String
  inStock : Option Bool
  deleted : Option Bool
  sort : String
  order : String
deriving DecidableEq, Repr

/-- A product row together with the relational `include`s used by the
product read paths (`Suppliers`/`Customer`/`Reviews` joins are omitted:
no verified property mentions them). -/
structure JoinedProduct where
  product : ProductRow
  Categories : Option CategoryRow
  Images : List ImageRow
  ProductAttribute : List ProductAttributeRow
  ProductVariant : List ProductVariantRow
deriving DecidableEq, Repr

/-- The `include` of `getProductsService`: every child row of the product
is selected, with its `Deleted` flag, and no `where` filter. -/
def joinProductListing (db : DB) (p : ProductRow) : JoinedProduct :=
  { product := p
    Categories := db.categories.find? (fun c => some c.ID == p.CategoryId)
    Images := db.images.filter (fun i => i.ProductId == p.ID)
    ProductAttribute := db.productAttribute.filter (fun a => a.ProductId == p.ID)
    ProductVariant := db.productVariant.filter (fun v => v.ProductId == p.ID) }

def productIdLe (a b : JoinedProduct) : Prop := a.product.ID ≤ b.product.ID

instance : DecidableRel productIdLe := fun a b => Int.decLe a.product.ID b.product.ID

instance : IsTotal JoinedProduct productIdLe := ⟨fun a b => Int.le_total a.product.ID b.product.ID⟩

instance : IsTrans JoinedProduct productIdLe := ⟨fun _ _ _ h1 h2 => le_trans h1 h2⟩

structure ProductsResult where
  products : List JoinedProduct
  pagination : Pagination
deriving DecidableEq, Repr

/-- `getProductsService` (`src/unnamed/part_010`, lines 14-105).
The `skip` value and the `orderBy` built by `buildProductOrderBy` are
computed exactly as in the source but — as in the source — never handed
to the query: `findMany` receives the hard-coded `orderBy: { ID: 'asc' }`
and no `skip`/`take`. -/
def getProductsService (db : DB) (filters : ListFilters) : ProductsResult :=
  let _skip := (filters.page - 1) * filters.limit
  let whereClause := buildProductWhereClause
    ⟨filters.search, filters.category, filters.supplierId, filters.inStock, filters.deleted⟩
  let _orderBy := buildProductOrderBy filters.sort filters.order
  let rows := db.products.filter (evalProductWhere whereClause)
  let sorted := List.insertionSort productIdLe (rows.map (joinProductListing db))
  let total := rows.length
  { products := sorted
    pagination := calculatePagination filters.page filters.limit total }

/-- The `include` of `getProductByIdService`: child collections filtered
to `Deleted: false`. -/
def joinProductById (db : DB) (p : ProductRow) : JoinedProduct :=
  { product := p
    Categories := db.categories.find? (fun c => some c.ID == p.CategoryId)
    Images := db.images.filter (fun i => i.ProductId == p.ID && i.Deleted == false)
    ProductAttribute :=
      db.productAttribute.filter (fun a => a.ProductId == p.ID && a.Deleted == false)
    ProductVariant :=
      db.productVariant.filter (fun v => v.ProductId == p.ID && v.Deleted == false) }

/-- `getProductByIdService` (`src/unnamed/part_010`, lines 110-195):
`findUnique` on `{ ID, Deleted: false }` with non-deleted children. -/
def getProductByIdService (db : DB) (productId : Int) : Option JoinedProduct :=
  (db.products.find? (fun p => p.ID == productId && p.Deleted == false)).map
    (joinProductById db)

/-! ## `products.controller.js`: response mapper -/

structure AttrResponse where
  id : Int
  key : Option String
  value : Option String
deriving DecidableEq, Repr

structure VariantResponse where
  id : Int
  name : Option String
  type' : Option String
  price : Option Rat
  stock : Option Int
deriving DecidableEq, Repr

structure CategoryResponse where
  id : Int
  name : String
  description : Option String
deriving DecidableEq, Repr

structure ProductResponse where
  id : Int
  name : String
  sku : String
  price : Rat
  stock : Int
  minimumStock : Int
  status : String
  description : Option String
  image : Option String
  images : List String
  categoryId : Option Int
  category : Option CategoryResponse
  supplierId : Option String
  attributes : List AttrResponse
  variants : List VariantResponse
deriving DecidableEq, Repr

/-- JS `x || null` on an optional string: the empty string collapses to
null. -/
def strOrNull : Option String → Option String
  | none => none
  | some s => if s == "" then none else some s

/-- `mapProductToResponse` from `products.controller.js`: field renaming,
`parseFloat(...) || 0` defaults, and the status label computed from the
soft-delete flag and the stock level (`!product.Stock || product.Stock
<= 0`). It maps whatever child collections the read path supplied, with
no filtering of its own. -/
def mapProductToResponse (jp : JoinedProduct) : ProductResponse :=
  let images := jp.Images.map (fun i => i.Url)
  let status :=
    if jp.product.Deleted then "inactive"
    else if !(intTruthy jp.product.Stock) ||
        (match jp.product.Stock with | some v => decide (v ≤ 0) | none => false) then
      "out_of_stock"
    else "active"
  { id := jp.product.ID
    name := jp.product.Name.getD ""
    sku := jp.product.SKU.getD ""
    price := jp.product.Price.getD 0
    stock := jp.product.Stock.getD 0
    minimumStock := jp.product.MinimumStock.getD 0
    status := status
    description := strOrNull jp.product.Description
    image := images.head?
    images := images
    categoryId := jp.product.CategoryId
    category := jp.Categories.map (fun c => ⟨c.ID, c.Name, c.Description⟩)
    supplierId := strOrNull jp.product.SupplierId
    attributes := jp.ProductAttribute.map (fun a => ⟨a.ID, a.Key, a.Value⟩)
    variants := jp.ProductVariant.map (fun v => ⟨v.ID, v.Name, v.Type', v.CustomPrice, v.Stock⟩) }

/-! ## `categories.service.js`: read paths -/

structure CategoryWithCount where
  category : CategoryRow
  countProducts : Nat
deriving DecidableEq, Repr

/-- Search part of the categories where-clause: case-insensitive
`contains` over `Name` and `Description`, applied only when the search
string is truthy. -/
def categoryMatchesSearch (search : String) (c : CategoryRow) : Bool :=
  if search == "" then true
  else containsInsensitive (some c.Name) search || containsInsensitive c.Description search

/-- Sort key selected by the categories `sortFieldMap` (`productCount`
falls back to `Name`). -/
inductive CatSortKey where
  | byName
  | byCreated
  | byUpdated
deriving DecidableEq, Repr

def catSortField (sort : String) : CatSortKey :=
  if sort == "name" then .byName
  else if sort == "createdAt" then .byCreated
  else if sort == "updatedAt" then .byUpdated
  else if sort == "productCount" then .byName
  else .byUpdated

def catCmpLe (key : CatSortKey) (order : String) (a b : CategoryRow) : Bool :=
  let fieldLe : CategoryRow → CategoryRow → Bool := fun x y =>
    match key with
    | .byName => decide (x.Name ≤ y.Name)
    | .byCreated => decide (x.CreatedDate ≤ y.CreatedDate)
    | .byUpdated => decide (x.UpdatedDate ≤ y.UpdatedDate)
  if order == "asc" then fieldLe a b else fieldLe b a

structure CatPagination where
  page : Int
  limit : Int
  total : Nat
  pages : Nat
deriving DecidableEq, Repr

/-- `getCategoriesService` from `categories.service.js`: non-deleted
categories matching the search, sorted, paged with `skip`/`take`, then
each decorated with `getCategoryProductCount(prisma, category.ID)` —
note that no additional filters are passed to the count. -/
def getCategoriesService (db : DB) (page limit : Int) (search : String)
    (sort order : String) : List CategoryWithCount × CatPagination :=
  let skip := (page - 1) * limit
  let rows := db.categories.filter
    (fun c => c.Deleted == false && categoryMatchesSearch search c)
  let sorted := List.insertionSort
    (fun a b => catCmpLe (catSortField sort) order a b = true) rows
  let paged := (sorted.drop skip.toNat).take limit.toNat
  let total := rows.length
  let withCounts := paged.map
    (fun c => CategoryWithCount.mk c (getCategoryProductCount db c.ID WhereFilters.empty))
  (withCounts,
   { page := page, limit := limit, total := total,
     pages := ceilDivNat total limit.toNat })

/-- `getCategoryByIdService` from `categories.service.js`: `findUnique`
on `{ ID, Deleted: false }`, decorated with the shared product count
(again with no additional filters). -/
def getCategoryByIdService (db : DB) (categoryId : Int) : Option CategoryWithCount :=
  (db.categories.find? (fun c => c.ID == categoryId && c.Deleted == false)).map
    (fun c => CategoryWithCount.mk c (getCategoryProductCount db c.ID WhereFilters.empty))

/-! ## `products.service.js`: `updateProductService` (the reconciler) -/

/-- Errors surfacing from the update pipeline. `recordNotFound` is Prisma
error P2025 (an `update` whose `where` matched no row); `invalidData` is
the Prisma/driver rejection of a non-integral or `NaN` value for a
numeric column; `validationFailed` is the 400 produced by the Joi
validation middleware. -/
inductive ServiceError where
  | productNotFound
  | categoryNotFound
  | supplierNotFound
  | recordNotFound
  | invalidData
  | validationFailed
deriving DecidableEq, Repr

def isErr {α β : Type} : Except α β → Bool
  | .error _ => true
  | .ok _ => false

/-- An element of the `Attributes` array of an update payload. -/
structure AttrOp where
  ID : Option Int
  Key : Option String
  Value : Option String
  _action : Option String
deriving DecidableEq, Repr

/-- An element of the `Variants` array of an update payload. -/
structure VariantOp where
  ID : Option Int
  Name : Option String
  Type' : Option String
  CustomPrice : Option Rat
  Stock : Option Int
  _action : Option String
deriving DecidableEq, Repr

/-- The body handed to `updateProductService` (after the controller has
split off `imagesToDelete`). Numeric fields may be strings or numbers. -/
structure UpdateData where
  Name : Option String
  Description : Option String
  Price : Option JVal
  Stock : Option JVal
  MinimumStock : Option JVal
  CategoryId : Option JVal
  SupplierId : Option String
  CustomerId : Option String
  Attributes : Option (List AttrOp)
  Variants : Option (List VariantOp)
deriving DecidableEq, Repr

def UpdateData.empty : UpdateData :=
  ⟨none, none, none, none, none, none, none, none, none, none⟩

/-- `attribute._action || 'create'` (an empty string is falsy). -/
def jsActionOf : Option String → String
  | none => "create"
  | some s => if s == "" then "create" else s

/-- In `data: { Key: attribute.Key, ... }` an `undefined` member means
"leave the column unchanged" under Prisma. -/
def setOpt {α : Type} (newV old : Option α) : Option α :=
  match newV with
  | some v => some v
  | none => old

/-- `typeof v === 'number' ? v : parseFloat(v)`; `none` is `NaN`. -/
def coerceFloatField : JVal → Option Rat
  | .num q => some q
  | .str s => parseFloatJS s

/-- Value stored into a Float/Decimal column; a `NaN` is rejected by the
client/driver. -/
def prepFloat (v : JVal) : Except ServiceError Rat :=
  match coerceFloatField v with
  | some q => .ok q
  | none => .error .invalidData

/-- `typeof v === 'number' ? v : parseInt(v)` stored into an Int column;
a non-integral number or `NaN` is rejected by the client/driver. -/
def prepInt (v : JVal) : Except ServiceError Int :=
  match v with
  | .num q => if q.den == 1 then .ok q.num else .error .invalidData
  | .str s =>
    match parseIntJS s with
    | some n => .ok n
    | none => .error .invalidData

/-- The `data` object of the parent `tx.products.update`: the four
numeric fields coerced, then the remaining present fields spread in
(`UpdatedDate` omitted — timestamps are not modelled). -/
def updatedProductRow (upd : UpdateData) (p : ProductRow) : Except ServiceError ProductRow := do
  let p ← match upd.Price with
    | none => pure p
    | some v => do
      let q ← prepFloat v
      pure { p with Price := some q }
  let p ← match upd.Stock with
    | none => pure p
    | some v => do
      let n ← prepInt v
      pure { p with Stock := some n }
  let p ← match upd.MinimumStock with
    | none => pure p
    | some v => do
      let n ← prepInt v
      pure { p with MinimumStock := some n }
  let p ← match upd.CategoryId with
    | none => pure p
    | some v => do
      let n ← prepInt v
      pure { p with CategoryId := some n }
  let p := match upd.Name with | none => p | some nm => { p with Name := some nm }
  let p := match upd.Description with | none => p | some d => { p with Description := some d }
  let p := match upd.SupplierId with | none => p | some s => { p with SupplierId := some s }
  let p := match upd.CustomerId with | none => p | some c => { p with CustomerId := some c }
  pure p

def updateRowsM (f : ProductRow → Except ServiceError ProductRow) :
    List ProductRow → Except ServiceError (List ProductRow)
  | [] => .ok []
  | p :: ps => do
    let p' ← f p
    let ps' ← updateRowsM f ps
    pure (p' :: ps')

/-- `tx.products.update({ where: { ID: productId }, data: ... })`:
P2025 when no row matches, otherwise the matching row is rewritten (a
bad numeric value aborts). -/
def txUpdateProductFields (productId : Int) (upd : UpdateData) (db : DB) :
    Except ServiceError DB :=
  match db.products.find? (fun p => p.ID == productId) with
  | none => .error .recordNotFound
  | some _ => do
    let ps ← updateRowsM
      (fun p => if p.ID == productId then updatedProductRow upd p else pure p) db.products
    pure { db with products := ps }

/-- `tx.images.createMany` for the freshly uploaded URLs. -/
def createImages (productId : Int) (urls : List String) (db : DB) : DB :=
  { db with
    images := db.images ++ urls.enum.map
      (fun iu => ImageRow.mk (db.nextImageId + (iu.1 : Int)) productId iu.2 false)
    nextImageId := db.nextImageId + urls.length }

/-- `tx.images.updateMany({ where: { ProductId, Url: { in: urls },
Deleted: false }, data: { Deleted: true } })`. -/
def softDeleteImages (productId : Int) (urls : List String) (db : DB) : DB :=
  { db with
    images := db.images.map (fun i =>
      if i.ProductId == productId && urls.contains i.Url && i.Deleted == false then
        { i with Deleted := true }
      else i) }

/-- The `where` of the attribute `update` branch. -/
def attrUpdatePred (productId : Int) (opID : Option Int) (a : ProductAttributeRow) : Bool :=
  some a.ID == opID && a.ProductId == productId && a.Deleted == false

/-- The `where` of the attribute `delete` branch (no `Deleted` filter). -/
def attrDeletePred (productId : Int) (opID : Option Int) (a : ProductAttributeRow) : Bool :=
  some a.ID == opID && a.ProductId == productId

/-- `tx.productAttribute.update`: P2025 when the `where` matches no row,
otherwise rewrite the matching row. -/
def updateAttrWhere (db : DB) (pred : ProductAttributeRow → Bool)
    (f : ProductAttributeRow → ProductAttributeRow) : Except ServiceError DB :=
  match db.productAttribute.find? pred with
  | none => .error .recordNotFound
  | some _ =>
    .ok { db with productAttribute :=
      (db.productAttribute.map (fun a => if pred a then f a else a)) }

def variantUpdatePred (productId : Int) (opID : Option Int) (v : ProductVariantRow) : Bool :=
  some v.ID == opID && v.ProductId == productId && v.Deleted == false

def variantDeletePred (productId : Int) (opID : Option Int) (v : ProductVariantRow) : Bool :=
  some v.ID == opID && v.ProductId == productId

def updateVariantWhere (db : DB) (pred : ProductVariantRow → Bool)
    (f : ProductVariantRow → ProductVariantRow) : Except ServiceError DB :=
  match db.productVariant.find? pred with
  | none => .error .recordNotFound
  | some _ =>
    .ok { db with productVariant :=
      (db.productVariant.map (fun v => if pred v then f v else v)) }

/-- One iteration of the attributes loop of `updateProductService`:
`create` inserts a fresh row (any supplied ID ignored), `update`/`delete`
with a truthy ID target an existing row, anything else falls through
silently. -/
def applyAttributeOp (productId : Int) (db : DB) (op : AttrOp) :
    Except ServiceError DB :=
  let action := jsActionOf op._action
  if action == "create" then
    .ok { db with
      productAttribute := db.productAttribute ++
        [ProductAttributeRow.mk db.nextAttrId productId op.Key op.Value false]
      nextAttrId := db.nextAttrId + 1 }
  else if action == "update" && intTruthy op.ID then
    updateAttrWhere db (attrUpdatePred productId op.ID)
      (fun a => { a with Key := setOpt op.Key a.Key, Value := setOpt op.Value a.Value })
  else if action == "delete" && intTruthy op.ID then
    updateAttrWhere db (attrDeletePred productId op.ID)
      (fun a => { a with Deleted := true })
  else
    .ok db

def processAttributeOps (productId : Int) (db : DB) :
    List AttrOp → Except ServiceError DB
  | [] => .ok db
  | op :: rest => do
    let db' ← applyAttributeOp productId db op
    processAttributeOps productId db' rest

/-- One iteration of the variants loop of `updateProductService`. -/
def applyVariantOp (productId : Int) (db : DB) (op : VariantOp) :
    Except ServiceError DB :=
  let action := jsActionOf op._action
  if action == "create" then
    .ok { db with
      productVariant := db.productVariant ++
        [ProductVariantRow.mk db.nextVariantId productId op.Name op.Type'
          op.CustomPrice op.Stock false]
      nextVariantId := db.nextVariantId + 1 }
  else if action == "update" && intTruthy op.ID then
    updateVariantWhere db (variantUpdatePred productId op.ID)
      (fun v => { v with
        Name := setOpt op.Name v.Name
        Type' := setOpt op.Type' v.Type'
        CustomPrice := setOpt op.CustomPrice v.CustomPrice
        Stock := setOpt op.Stock v.Stock })
  else if action == "delete" && intTruthy op.ID then
    updateVariantWhere db (variantDeletePred productId op.ID)
      (fun v => { v with Deleted := true })
  else
    .ok db

def processVariantOps (productId : Int) (db : DB) :
    List VariantOp → Except ServiceError DB
  | [] => .ok db
  | op :: rest => do
    let db' ← applyVariantOp productId db op
    processVariantOps productId db' rest

/-- The final `tx.products.findUnique` of the transaction: the updated
product with its non-deleted children. -/
def finalAggregate (productId : Int) (db : DB) : Option JoinedProduct :=
  (db.products.find? (fun p => p.ID == productId)).map (joinProductById db)

/-- The image steps of the transaction: `createMany` for the new upload
URLs when any, then the soft-delete `updateMany` when a removal list was
supplied. -/
def imagesPhase (productId : Int) (newImageUrls : List String)
    (imagesToDelete : Option (List String)) (db1 : DB) : DB :=
  let db2 := if newImageUrls.length > 0 then createImages productId newImageUrls db1 else db1
  match imagesToDelete with
  | some urls => if urls.length > 0 then softDeleteImages productId urls db2 else db2
  | none => db2

/-- The body of the `prisma.$transaction` of `updateProductService`
(`src/unnamed/part_010`, lines 442-636): parent field update, image
phase, attribute ops, variant ops, final read. -/
def updateProductTx (productId : Int) (upd : UpdateData) (newImageUrls : List String)
    (imagesToDelete : Option (List String)) (db : DB) :
    Except ServiceError (Option JoinedProduct × DB) := do
  let db1 ← txUpdateProductFields productId upd db
  let db3 := imagesPhase productId newImageUrls imagesToDelete db1
  let db4 ← match upd.Attributes with
    | some ops => processAttributeOps productId db3 ops
    | none => pure db3
  let db5 ← match upd.Variants with
    | some ops => processVariantOps productId db4 ops
    | none => pure db4
  pure (finalAggregate productId db5, db5)

/-- Lookup of the referenced category: the raw value goes through
`parseInt`; a `NaN` filter value matches nothing (the client would raise
either way, leaving the database untouched). -/
def categoryLookup (db : DB) (v : JVal) : Option CategoryRow :=
  db.categories.find? (fun c => some c.ID == parseIntOfJVal v)

def categoryCheckFails (db : DB) (cid : Option JVal) : Bool :=
  match cid with
  | none => false
  | some v => jvalTruthyV v && (categoryLookup db v).isNone

def supplierCheckFails (db : DB) (sid : Option String) : Bool :=
  match sid with
  | none => false
  | some s => !(s == "") && (db.suppliers.find? (fun sp => sp.Id == s)).isNone

/-- The pre-transaction checks of `updateProductService`: product lookup
(no `Deleted` filter), then category and supplier reference checks for
truthy fields. -/
def updateProductPreChecks (db : DB) (productId : Int) (upd : UpdateData) :
    Except ServiceError ProductRow :=
  match db.products.find? (fun p => p.ID == productId) with
  | none => .error .productNotFound
  | some existing =>
    if categoryCheckFails db upd.CategoryId then .error .categoryNotFound
    else if supplierCheckFails db upd.SupplierId then .error .supplierNotFound
    else .ok existing

/-- `updateProductService` (`src/unnamed/part_010`, lines 367-673).
`imageFiles` is modelled by the list of URLs its Cloudinary uploads
return; the post-commit Cloudinary deletions and the catch-block upload
cleanup touch no database state, so an error from the transaction leaves
the returned state exactly the input state (rollback). -/
def updateProductService (db : DB) (productId : Int) (updateData : UpdateData)
    (imageFiles : List String) (imagesToDelete : Option (List String)) :
    Except ServiceError (Option JoinedProduct) × DB :=
  match updateProductPreChecks db productId updateData with
  | .error e => (.error e, db)
  | .ok _ =>
    match updateProductTx productId updateData imageFiles imagesToDelete db with
    | .ok (finalProduct, db') => (.ok finalProduct, db')
    | .error e => (.error e, db)

/-! ## `products.validation.js` + validation middleware

The middleware validates the raw body against `updateProductSchema`
(Joi, `convert` mode) and answers 400 on any error, but does not write
the converted values back: the controller and service receive the
original body. -/

def chompMantissa (cs : List Char) : Option (List Char) :=
  let ds := cs.takeWhile isDigitChar
  let rest := cs.dropWhile isDigitChar
  if ds.isEmpty then
    match rest with
    | '.' :: r =>
      let fs := r.takeWhile isDigitChar
      if fs.isEmpty then none else some (r.dropWhile isDigitChar)
    | _ => none
  else
    match rest with
    | '.' :: r => some (r.dropWhile isDigitChar)
    | _ => some rest

def chompExponent (cs : List Char) : Option (List Char) :=
  match cs with
  | 'e' :: r =>
    let r2 := dropSign r
    let ds := r2.takeWhile isDigitChar
    if ds.isEmpty then none else some (r2.dropWhile isDigitChar)
  | 'E' :: r =>
    let r2 := dropSign r
    let ds := r2.takeWhile isDigitChar
    if ds.isEmpty then none else some (r2.dropWhile isDigitChar)
  | _ => some cs

/-- Joi's strict numeric-string shape:
whitespace, optional sign, digits with optional fraction (or a bare
fraction), optional exponent, whitespace — nothing else. -/
def joiNumericShape (s : String) : Bool :=
  match chompMantissa (dropSign ((s.toList).dropWhile isWsChar)) with
  | none => false
  | some rest =>
    match chompExponent rest with
    | none => false
    | some rest2 => ((rest2.dropWhile isWsChar)).isEmpty

/-- Joi `number()` coercion of a string: strings of the strict numeric
shape convert (via `parseFloat`); everything else (such as "abc") is a
type error. -/
def joiCoerceNumber (s : String) : Option Rat :=
  if joiNumericShape s then parseFloatJS s else none

/-- Joi `number()` with optional `integer()` and a `min` bound, applied
to a number-or-string value (`precision(2)` only rounds in convert mode
and never fails, so it does not affect validity). -/
def joiNumberOk (isInt : Bool) (minV : Rat) (v : JVal) : Bool :=
  match v with
  | .num q => (!isInt || q.den == 1) && decide (minV ≤ q)
  | .str s =>
    match joiCoerceNumber s with
    | some q => (!isInt || q.den == 1) && decide (minV ≤ q)
    | none => false

/-- Joi optional string with length bounds; `allowEmpty` mirrors
`.allow('')`. -/
def joiOptStr (minL maxL : Nat) (allowEmpty : Bool) : Option String → Bool
  | none => true
  | some s =>
    if s == "" then allowEmpty
    else decide (minL ≤ s.length) && decide (s.length ≤ maxL)

def isHexDigit (c : Char) : Bool :=
  isDigitChar c || ('a' ≤ c && c ≤ 'f') || ('A' ≤ c && c ≤ 'F')

def allHex (cs : List Char) : Bool := cs.all isHexDigit

/-- The GUID shape accepted by `isValidGuid` (8-4-4-4-12 hex groups with
constrained version/variant nibbles, case-insensitive). -/
def isValidGuidB (s : String) : Bool :=
  match s.splitOn "-" with
  | [a, b, c, d, e] =>
    (a.length == 8 && allHex a.toList) &&
    (b.length == 4 && allHex b.toList) &&
    (c.length == 4 && allHex c.toList &&
      (match c.toList with
       | v :: _ => '1' ≤ v && v ≤ '5'
       | [] => false)) &&
    (d.length == 4 && allHex d.toList &&
      (match d.toList with
       | v :: _ => v == '8' || v == '9' || v.toLower == 'a' || v.toLower == 'b'
       | [] => false)) &&
    (e.length == 12 && allHex e.toList)
  | _ => false

/-- One `Attributes` item of `updateProductSchema`: optional integer
`ID ≥ 1`, required `Key`/`Value` (1-255 chars), `_action` restricted to
the three verbs. -/
def validAttrOp (op : AttrOp) : Bool :=
  (match op.ID with | none => true | some i => decide (1 ≤ i)) &&
  (match op.Key with | some k => joiOptStr 1 255 false (some k) | none => false) &&
  (match op.Value with | some v => joiOptStr 1 255 false (some v) | none => false) &&
  (match op._action with
   | none => true
   | some a => a == "create" || a == "update" || a == "delete")

/-- One `Variants` item of `updateProductSchema`. -/
def validVariantOp (op : VariantOp) : Bool :=
  (match op.ID with | none => true | some i => decide (1 ≤ i)) &&
  joiOptStr 1 255 true op.Name &&
  joiOptStr 1 255 true op.Type' &&
  (match op.CustomPrice with | some q => decide ((0 : Rat) ≤ q) | none => false) &&
  (match op.Stock with | some n => decide ((0 : Int) ≤ n) | none => false) &&
  (match op._action with
   | none => true
   | some a => a == "create" || a == "update" || a == "delete")

/-- `updateProductSchema` over the typed body (all fields optional). -/
def validateUpdateProductBody (b : UpdateData) : Bool :=
  joiOptStr 1 255 true b.Name &&
  joiOptStr 0 1000 true b.Description &&
  (match b.Price with | none => true | some v => joiNumberOk false 0 v) &&
  (match b.Stock with | none => true | some v => joiNumberOk true 0 v) &&
  (match b.MinimumStock with | none => true | some v => joiNumberOk true 0 v) &&
  (match b.CategoryId with | none => true | some v => joiNumberOk true 1 v) &&
  (match b.SupplierId with | none => true | some s => s == "" || isValidGuidB s) &&
  (match b.CustomerId with | none => true | some s => s == "" || isValidGuidB s) &&
  (match b.Attributes with | none => true | some l => l.all validAttrOp) &&
  (match b.Variants with | none => true | some l => l.all validVariantOp)

/-- The `PUT /api/products/:id` pipeline relevant to stored data: the
validation middleware rejects invalid bodies with a 400 before the
controller runs (no mutation), otherwise the original body reaches
`updateProductService`. -/
def updateProductEndpoint (db : DB) (productId : Int) (body : UpdateData)
    (imageFiles : List String) (imagesToDelete : Option (List String)) :
    Except ServiceError (Option JoinedProduct) × DB :=
  if validateUpdateProductBody body then
    updateProductService db productId body imageFiles imagesToDelete
  else
    (.error .validationFailed, db)

/-! ## Concrete instances used to exercise the definitions -/

/-- A category used by the concrete databases. -/
def catElectronics : CategoryRow := ⟨1, "Electronics", none, none, false, 0, 0⟩

/-- A soft-deleted product in category 1. -/
def pGhost : ProductRow :=
  ⟨11, some "Ghost", some "SKU-G", none, some 5, some 3, none, some 1, none, none, true⟩

/-- Database where the only product of category 1 is soft-deleted. -/
def dbC4 : DB := ⟨[pGhost], [], [], [], [catElectronics], [], 50, 50, 50⟩

/-- A live product whose children are all soft-deleted. -/
def pShirt : ProductRow :=
  ⟨1, some "Shirt", some "SKU-1", none, some 10, some 5, some 2, none, none, none, false⟩

def dbC5 : DB :=
  ⟨[pShirt],
   [⟨7, 1, some "Color", some "Red", true⟩],
   [⟨8, 1, some "Small", some "Size", some 10, some 2, true⟩],
   [⟨9, 1, "http://img.example/x.png", true⟩],
   [], [], 100, 100, 100⟩

def lfDefault : ListFilters := ⟨1, 20, none, none, none, none, none, "createdAt", "desc"⟩

/-- A product with one live and one soft-deleted child of each kind. -/
def dbW5 : DB :=
  ⟨[pShirt],
   [⟨7, 1, some "Color", some "Red", true⟩, ⟨12, 1, some "Size", some "L", false⟩],
   [⟨8, 1, some "Small", some "Size", some 10, some 2, true⟩,
    ⟨13, 1, some "Big", some "Size", some 12, some 4, false⟩],
   [⟨9, 1, "http://img.example/x.png", true⟩, ⟨14, 1, "http://img.example/y.png", false⟩],
   [], [], 100, 100, 100⟩

def jpW5 : JoinedProduct := joinProductById dbW5 pShirt

/-- A live product with stock exactly 0 in category 1. -/
def pZeroStock : ProductRow :=
  ⟨21, some "Zero", some "SKU-Z", none, some 3, some 0, none, some 1, none, none, false⟩

def dbW10 : DB := ⟨[pZeroStock], [], [], [], [catElectronics], [], 50, 50, 50⟩

def lfInStock : ListFilters := ⟨1, 20, none, none, none, some true, none, "createdAt", "desc"⟩

/-- Database with one live and one deleted product in category 1, plus a
product outside the category, for the count/listing consistency witness. -/
def dbW3 : DB :=
  ⟨[pZeroStock, pGhost,
    ⟨31, some "Other", some "SKU-O", none, some 9, some 9, none, some 2, none, none, false⟩],
   [], [], [], [catElectronics, ⟨2, "Books", none, none, false, 0, 0⟩], [], 50, 50, 50⟩

/-- Product 1 with no attributes, used for failing update calls. -/
def dbUpd : DB := ⟨[pShirt], [], [], [], [catElectronics], [], 100, 100, 100⟩

/-- A batch whose second operation references a missing attribute row:
the first (create) op must not survive the failed call. -/
def updBatchC1 : UpdateData :=
  { UpdateData.empty with
    Attributes := some [⟨none, some "Color", some "Red", none⟩,
                        ⟨some 99, some "K", some "V", some "update"⟩] }

/-- Database for the C2 counterexample: product 1 exists, attribute 99
does not. -/
def dbUpd2 : DB := ⟨[pShirt], [], [], [], [catElectronics], [], 200, 200, 200⟩

/-- A single update op targeting the non-existent attribute 99. -/
def updBatchC2 : UpdateData :=
  { UpdateData.empty with
    Attributes := some [⟨some 99, some "K", some "V", some "update"⟩] }

/-! ## Theorems -/

/-- C8: for every product record, the mapped status label is "inactive"
exactly when the soft-delete flag is set; otherwise "out_of_stock"
exactly when stock is null, zero or non-positive; otherwise "active" —
in particular a non-deleted product with zero or null stock never gets
the "inactive" label, and the deleted flag takes precedence over stock. -/
theorem C8_status_label (jp : JoinedProduct) :
    ((mapProductToResponse jp).status = "inactive" ↔ jp.product.Deleted = true) ∧
    ((mapProductToResponse jp).status = "out_of_stock" ↔
      (jp.product.Deleted = false ∧
        (jp.product.Stock = none ∨ ∃ v, jp.product.Stock = some v ∧ v ≤ 0))) ∧
    ((mapProductToResponse jp).status = "active" ↔
      (jp.product.Deleted = false ∧ ∃ v, jp.product.Stock = some v ∧ 0 < v)) := by
  simp only [mapProductToResponse]
  cases hd : jp.product.Deleted
  · cases hs : jp.product.Stock with
    | none => simp [intTruthy]
    | some v =>
      by_cases hv : v ≤ 0
      · have hcond : (!intTruthy (some v) || decide (v ≤ 0)) = true := by
          simp [intTruthy, hv]
        simp only [hcond, if_true, if_false, Bool.false_eq_true]
        refine ⟨by simp, ?_, ?_⟩
        · simp only [String.reduceEq, true_iff, hv]
          exact ⟨by trivial, Or.inr ⟨v, rfl, hv⟩⟩
        · constructor
          · intro h; exact absurd h (by simp)
          · rintro ⟨-, w, hw, hw0⟩
            cases Option.some.injEq v w ▸ hw
            omega
      · have hcond : (!intTruthy (some v) || decide (v ≤ 0)) = false := by
          simp [intTruthy, hv]
          omega
        simp only [hcond, Bool.false_eq_true, if_false]
        refine ⟨by simp, ?_, ?_⟩
        · constructor
          · intro h; exact absurd h (by simp)
          · rintro ⟨-, h⟩
            rcases h with h | ⟨w, hw, hw0⟩
            · exact absurd h (by simp)
            · injection hw with hw; omega
        · simp only [String.reduceEq, true_iff]
          exact ⟨by trivial, v, rfl, by omega⟩
  · refine ⟨by simp, ?_, ?_⟩ <;> simp


/-- C9: for every filters input, `getProductsService` returns the rows
ordered by ascending ID, independently of the requested sort field and
direction — the `buildProductOrderBy` result is computed but never
reaches the query, which uses the hard-coded `orderBy: { ID: 'asc' }`. -/
theorem C9_listing_ignores_sort (db : DB) (f : ListFilters) (s1 o1 s2 o2 : String) :
    getProductsService db { f with sort := s1, order := o1 } =
      getProductsService db { f with sort := s2, order := o2 } ∧
    List.Sorted (fun a b => a.product.ID ≤ b.product.ID)
      (getProductsService db f).products ∧
    (getProductsService db f).products =
      List.insertionSort productIdLe
        ((db.products.filter (evalProductWhere (buildProductWhereClause
          ⟨f.search, f.category, f.supplierId, f.inStock, f.deleted⟩))).map
            (joinProductListing db)) := by
  refine ⟨rfl, ?_, rfl⟩
  exact List.sorted_insertionSort productIdLe _

/-- C4 (failing input): in a database whose only product of category 1
is soft-deleted, the shared count function and the single-category
endpoint both report a product count of 1: the commented-out
`Deleted: false` base predicate means soft-deleted products are counted,
contrary to the claim (and to the filtering utility's own comments). -/
theorem C4_deleted_product_is_counted :
    getCategoryProductCount dbC4 1 WhereFilters.empty = 1 ∧
    (getCategoryByIdService dbC4 1).map (fun cw => cw.countProducts) = some 1 ∧
    dbC4.products.all (fun p => p.Deleted == true) = true := by
  decide

/-- C5 (counterexample): a soft-deleted attribute (ID 7), variant (ID 8)
and image of product 1 all appear in the children collections returned by
the products-listing read path and in the mapped API response, so the
"never appears in any subsequent read, regardless of read path" claim
fails on the listing path. -/
theorem C5_counterexample :
    ((getProductsService dbC5 lfDefault).products.map
      (fun jp => ((mapProductToResponse jp).attributes.map (fun a => a.id),
                  (mapProductToResponse jp).variants.map (fun v => v.id),
                  (mapProductToResponse jp).images))) =
      [([7], [8], ["http://img.example/x.png"])] ∧
    dbC5.productAttribute.all (fun a => a.Deleted == true) = true ∧
    dbC5.productVariant.all (fun v => v.Deleted == true) = true ∧
    dbC5.images.all (fun i => i.Deleted == true) = true := by
  decide

/-- C5 (amended): soft-deleted children never appear in the
single-product read path (`getProductByIdService`); the products-listing
path, by contrast, returns all children together with their `Deleted`
flag (see the counterexample). -/
theorem C5_single_read_excludes_deleted (db : DB) (pid : Int) (jp : JoinedProduct)
    (h : getProductByIdService db pid = some jp) :
    (∀ a ∈ jp.ProductAttribute, a.Deleted = false) ∧
    (∀ v ∈ jp.ProductVariant, v.Deleted = false) ∧
    (∀ i ∈ jp.Images, i.Deleted = false) := by
  unfold getProductByIdService at h
  obtain ⟨p, hp, hjp⟩ := Option.map_eq_some'.mp h
  subst hjp
  refine ⟨?_, ?_, ?_⟩ <;> intro x hx
  · have := (List.mem_filter.mp hx).2
    simp [joinProductById] at hx
    exact hx.2.2
  · simp [joinProductById] at hx
    exact hx.2.2
  · simp [joinProductById] at hx
    exact hx.2.2

/-- Witness for the amended C5 at a concrete database holding both live
and soft-deleted children. -/
theorem C5_single_read_excludes_deleted_witness :
    (∀ a ∈ jpW5.ProductAttribute, a.Deleted = false) ∧
    (∀ v ∈ jpW5.ProductVariant, v.Deleted = false) ∧
    (∀ i ∈ jpW5.Images, i.Deleted = false) :=
  C5_single_read_excludes_deleted dbW5 1 jpW5 rfl


/-- C10: when the `inStock` filter is `true`, `buildProductWhereClause`
emits the predicate `Stock: { gte: 0 }`; a product with stock exactly 0
satisfies it, and any product satisfying the whole where-clause is
returned by the listing. -/
theorem C10_instock_includes_zero_stock (f : ListFilters) (p : ProductRow) (db : DB)
    (hin : f.inStock = some true) :
    (buildProductWhereClause
      ⟨f.search, f.category, f.supplierId, f.inStock, f.deleted⟩).stockGte = some 0 ∧
    (p.Stock = some 0 →
      evalStockGte (buildProductWhereClause
        ⟨f.search, f.category, f.supplierId, f.inStock, f.deleted⟩).stockGte p = true) ∧
    (p ∈ db.products →
      evalProductWhere (buildProductWhereClause
        ⟨f.search, f.category, f.supplierId, f.inStock, f.deleted⟩) p = true →
      joinProductListing db p ∈ (getProductsService db f).products) := by
  have hgte : (buildProductWhereClause
      ⟨f.search, f.category, f.supplierId, f.inStock, f.deleted⟩).stockGte = some 0 := by
    simp only [buildProductWhereClause, hin]
    rfl
  refine ⟨hgte, ?_, ?_⟩
  · intro hstock
    simp [evalStockGte, hgte, hstock]
  · intro hmem hpred
    have h1 : p ∈ db.products.filter (evalProductWhere (buildProductWhereClause
        ⟨f.search, f.category, f.supplierId, f.inStock, f.deleted⟩)) :=
      List.mem_filter.mpr ⟨hmem, hpred⟩
    have h2 : joinProductListing db p ∈
        (db.products.filter (evalProductWhere (buildProductWhereClause
          ⟨f.search, f.category, f.supplierId, f.inStock, f.deleted⟩))).map
            (joinProductListing db) :=
      List.mem_map_of_mem (joinProductListing db) h1
    exact (List.perm_insertionSort productIdLe _).mem_iff.mpr h2

/-- Witness for C10: a concrete zero-stock product is returned by an
`inStock = true` listing. -/
theorem C10_instock_includes_zero_stock_witness :
    joinProductListing dbW10 pZeroStock ∈ (getProductsService dbW10 lfInStock).products :=
  (C10_instock_includes_zero_stock lfInStock pZeroStock dbW10 rfl).2.2
    (by decide) (by decide)


/-- Length of the product listing: the number of rows matching the shared
where-clause (the query applies no `skip`/`take`). -/
theorem getProductsService_products_length (db : DB) (lf : ListFilters) :
    (getProductsService db lf).products.length =
      (db.products.filter (evalProductWhere (buildProductWhereClause
        ⟨lf.search, lf.category, lf.supplierId, lf.inStock, lf.deleted⟩))).length := by
  simp only [getProductsService]
  rw [(List.perm_insertionSort productIdLe _).length_eq, List.length_map]

/-- C3: the derived product count and the product listing are computed
from the same predicate builder (`buildProductWhereClause`), so they
agree: (i) `getCategoryProductCount` for category C under any additional
filters equals the listing length under the same filters plus category C;
(ii) the count attached to every category returned by
`getCategoriesService` (which passes no additional filters) equals the
length of the listing filtered to that category alone; (iii) likewise for
`getCategoryByIdService`. -/
theorem C3_count_listing_consistency (db : DB) (C : Int) (af : WhereFilters)
    (page limit : Int) (sort order : String) :
    (getCategoryProductCount db C af =
      (getProductsService db
        ⟨page, limit, af.search, some C, af.supplierId, af.inStock, af.deleted,
         sort, order⟩).products.length) ∧
    (∀ pg lim srch srt ord, ∀ cw ∈ (getCategoriesService db pg lim srch srt ord).1,
      cw.countProducts =
        (getProductsService db
          ⟨page, limit, none, some cw.category.ID, none, none, none,
           sort, order⟩).products.length) ∧
    (∀ cid cw, getCategoryByIdService db cid = some cw →
      cw.countProducts =
        (getProductsService db
          ⟨page, limit, none, some cw.category.ID, none, none, none,
           sort, order⟩).products.length) := by
  refine ⟨?_, ?_, ?_⟩
  · rw [getProductsService_products_length]
    rfl
  · intro pg lim srch srt ord cw hcw
    simp only [getCategoriesService] at hcw
    obtain ⟨c, _, hceq⟩ := List.mem_map.mp hcw
    rw [← hceq, getProductsService_products_length]
    rfl
  · intro cid cw h
    unfold getCategoryByIdService at h
    obtain ⟨c, _, hceq⟩ := Option.map_eq_some'.mp h
    rw [← hceq, getProductsService_products_length]
    rfl

/-- Witness for C3: in a concrete database, the count attached to
category 1 by the single-category endpoint equals the listing length for
category 1 (both are 2 — including, notably, a soft-deleted product). -/
theorem C3_count_listing_consistency_witness :
    (CategoryWithCount.mk catElectronics 2).countProducts =
      (getProductsService dbW3
        ⟨1, 10, none, some (CategoryWithCount.mk catElectronics 2).category.ID,
         none, none, none, "createdAt", "desc"⟩).products.length :=
  (C3_count_listing_consistency dbW3 1 WhereFilters.empty 1 10 "createdAt" "desc").2.2
    1 (CategoryWithCount.mk catElectronics 2) (by decide)


/-- Bind of an error propagates (Except monad). -/
theorem errBind {α β γ : Type} (e : α) (f : β → Except α γ) :
    (Except.error e >>= f) = Except.error e := rfl

/-- Bind of a success applies the continuation (Except monad). -/
theorem okBind {α β γ : Type} (b : β) (f : β → Except α γ) :
    (Except.ok b >>= f) = f b := rfl

/-- A successful parent-field update only rewrites the products table. -/
theorem txUpdateProductFields_attrs (productId : Int) (upd : UpdateData) (db db1 : DB)
    (h : txUpdateProductFields productId upd db = .ok db1) :
    db1.productAttribute = db.productAttribute := by
  unfold txUpdateProductFields at h
  cases hf : db.products.find? (fun p => p.ID == productId) with
  | none => rw [hf] at h; exact absurd h (by simp)
  | some p =>
    rw [hf] at h
    cases hr : updateRowsM
        (fun p => if p.ID == productId then updatedProductRow upd p else pure p)
        db.products with
    | error e => rw [hr, errBind] at h; exact absurd h (by simp)
    | ok ps =>
      rw [hr, okBind] at h
      cases h
      rfl

/-- The image phase never touches the attribute table. -/
theorem imagesPhase_attrs (productId : Int) (urls : List String)
    (itd : Option (List String)) (db1 : DB) :
    (imagesPhase productId urls itd db1).productAttribute = db1.productAttribute := by
  unfold imagesPhase
  have h2 : (if urls.length > 0 then createImages productId urls db1
      else db1).productAttribute = db1.productAttribute := by
    split <;> rfl
  cases itd with
  | none => exact h2
  | some l =>
    dsimp only
    split
    · exact h2
    · exact h2

/-- An `update`/`delete` attribute operation whose `where` matches no row
makes the whole attributes loop raise P2025. -/
theorem processAttr_err (productId : Int) (db0 dbX : DB)
    (hattr : dbX.productAttribute = db0.productAttribute)
    (op : AttrOp) (rest : List AttrOp) (i : Int)
    (hid : op.ID = some i) (hi : i ≠ 0)
    (hcase : (op._action = some "update" ∧
        db0.productAttribute.find? (attrUpdatePred productId (some i)) = none) ∨
      (op._action = some "delete" ∧
        db0.productAttribute.find? (attrDeletePred productId (some i)) = none)) :
    processAttributeOps productId dbX (op :: rest) = .error .recordNotFound := by
  have hit : intTruthy (some i) = true := by simp [intTruthy, hi]
  have hX : ∀ pred f, dbX.productAttribute.find? pred = none →
      updateAttrWhere dbX pred f = .error .recordNotFound := by
    intro pred f hnone
    unfold updateAttrWhere
    rw [hnone]
  obtain ⟨oid, okey, oval, oact⟩ := op
  simp only at hid
  subst hid
  rcases hcase with ⟨hact, hfind⟩ | ⟨hact, hfind⟩ <;> simp only at hact <;> subst hact
  · have happ : applyAttributeOp productId dbX ⟨some i, okey, oval, some "update"⟩ =
        .error .recordNotFound := by
      simp only [applyAttributeOp, jsActionOf, hit]
      exact hX _ _ (by rw [hattr]; exact hfind)
    simp [processAttributeOps, happ, errBind]
  · have happ : applyAttributeOp productId dbX ⟨some i, okey, oval, some "delete"⟩ =
        .error .recordNotFound := by
      simp only [applyAttributeOp, jsActionOf, hit]
      exact hX _ _ (by rw [hattr]; exact hfind)
    simp [processAttributeOps, happ, errBind]

/-- Under the hypotheses of `processAttr_err`, the whole transaction body
raises. -/
theorem updateProductTx_isErr_of_bad_attr (productId : Int) (upd : UpdateData)
    (files : List String) (itd : Option (List String)) (db : DB)
    (op : AttrOp) (rest : List AttrOp) (i : Int)
    (hops : upd.Attributes = some (op :: rest))
    (hid : op.ID = some i) (hi : i ≠ 0)
    (hcase : (op._action = some "update" ∧
        db.productAttribute.find? (attrUpdatePred productId (some i)) = none) ∨
      (op._action = some "delete" ∧
        db.productAttribute.find? (attrDeletePred productId (some i)) = none)) :
    isErr (updateProductTx productId upd files itd db) = true := by
  unfold updateProductTx
  cases hs1 : txUpdateProductFields productId upd db with
  | error e => rw [errBind]; rfl
  | ok db1 =>
    rw [okBind]
    have hattr : (imagesPhase productId files itd db1).productAttribute =
        db.productAttribute := by
      rw [imagesPhase_attrs]
      exact txUpdateProductFields_attrs productId upd db db1 hs1
    rw [hops]
    dsimp only
    rw [processAttr_err productId db (imagesPhase productId files itd db1) hattr
      op rest i hid hi hcase]
    rfl

/-- On any error outcome the returned state is the input state: every
mutating step runs inside the single `prisma.$transaction`, whose
failure discards all of them, and the pre-transaction steps never write. -/
theorem updateProductService_error_state (db : DB) (productId : Int)
    (upd : UpdateData) (files : List String) (itd : Option (List String))
    (h : isErr (updateProductService db productId upd files itd).1 = true) :
    (updateProductService db productId upd files itd).2 = db := by
  unfold updateProductService at h ⊢
  cases hpc : updateProductPreChecks db productId upd with
  | error e => rfl
  | ok x =>
    rw [hpc] at h
    cases htx : updateProductTx productId upd files itd db with
    | error e => rfl
    | ok pr =>
      obtain ⟨a, b⟩ := pr
      rw [htx] at h
      simp [isErr] at h


/-- C1: for every call to the reconciler `updateProductService`, if the
call fails — whether in a pre-check or at any step inside the unit of
work, including the k-th of N child operations — the persisted state of
the product aggregate after the call equals its state immediately before
the call: no partial application of the earlier operations is retained. -/
theorem C1_update_atomicity (db : DB) (productId : Int) (upd : UpdateData)
    (files : List String) (itd : Option (List String))
    (h : isErr (updateProductService db productId upd files itd).1 = true) :
    (updateProductService db productId upd files itd).2 = db :=
  updateProductService_error_state db productId upd files itd h

/-- Witness for C1: a concrete two-operation batch whose second child
operation raises (update of a missing attribute row) fails and leaves
the state unchanged — the first (create) operation is not retained. -/
theorem C1_update_atomicity_witness :
    isErr (updateProductService dbUpd 1 updBatchC1 [] none).1 = true ∧
    (updateProductService dbUpd 1 updBatchC1 [] none).2 = dbUpd :=
  ⟨by decide, C1_update_atomicity dbUpd 1 updBatchC1 [] none (by decide)⟩

/-- C2 (counterexample): a call whose only attribute operation is an
`update` tagged with the ID of a non-existent child row does not succeed:
Prisma's `update` raises P2025 for an unmatched `where`, the transaction
rolls back, and `updateProductService` rethrows — refuting "the call
still succeeds and every other operation in the batch is applied". -/
theorem C2_counterexample :
    (updateProductService dbUpd2 1 updBatchC2 [] none).1 =
      .error .recordNotFound ∧
    isErr (updateProductService dbUpd2 1 updBatchC2 [] none).1 = true := by
  constructor
  · rfl
  · decide

/-- C2 (amended): an attribute `update`/`delete` operation (first in the
batch) carrying a truthy ID whose `where` matches no row — a
non-existent child, or for `update` a soft-deleted one — makes the
entire call fail and roll back, leaving the state unchanged; it is not a
silent no-op. (Only an operation with a missing/zero ID falls through
silently, and the variant branches behave identically.) -/
theorem C2_missing_child_update_fails (db : DB) (productId : Int) (upd : UpdateData)
    (files : List String) (itd : Option (List String))
    (op : AttrOp) (rest : List AttrOp) (i : Int)
    (hops : upd.Attributes = some (op :: rest))
    (hid : op.ID = some i) (hi : i ≠ 0)
    (hcase : (op._action = some "update" ∧
        db.productAttribute.find? (attrUpdatePred productId (some i)) = none) ∨
      (op._action = some "delete" ∧
        db.productAttribute.find? (attrDeletePred productId (some i)) = none)) :
    isErr (updateProductService db productId upd files itd).1 = true ∧
    (updateProductService db productId upd files itd).2 = db := by
  have herr : isErr (updateProductService db productId upd files itd).1 = true := by
    unfold updateProductService
    cases hpc : updateProductPreChecks db productId upd with
    | error e => rfl
    | ok x =>
      have htx := updateProductTx_isErr_of_bad_attr productId upd files itd db
        op rest i hops hid hi hcase
      cases htx2 : updateProductTx productId upd files itd db with
      | error e => rfl
      | ok pr =>
        rw [htx2] at htx
        obtain ⟨a, b⟩ := pr
        simp [isErr] at htx
  exact ⟨herr, updateProductService_error_state db productId upd files itd herr⟩

/-- Witness for the amended C2 at a concrete database: product 1 exists,
attribute 99 does not, the single `update` op makes the call fail with
the state preserved. -/
theorem C2_missing_child_update_fails_witness :
    isErr (updateProductService dbUpd2 1 updBatchC2 [] none).1 = true ∧
    (updateProductService dbUpd2 1 updBatchC2 [] none).2 = dbUpd2 :=
  C2_missing_child_update_fails dbUpd2 1 updBatchC2 [] none
    ⟨some 99, some "K", some "V", some "update"⟩ [] 99 rfl rfl (by decide)
    (Or.inl ⟨rfl, by decide⟩)


/-- Replacing one attribute operation by a pointwise-equivalent one does
not change the attributes loop. -/
theorem processAttributeOps_congr (pid : Int) (op1 op2 : AttrOp)
    (h : ∀ d, applyAttributeOp pid d op1 = applyAttributeOp pid d op2)
    (pre post : List AttrOp) :
    ∀ d, processAttributeOps pid d (pre ++ op1 :: post) =
      processAttributeOps pid d (pre ++ op2 :: post) := by
  induction pre with
  | nil =>
    intro d
    simp only [List.nil_append, processAttributeOps, h d]
  | cons p ps ih =>
    intro d
    simp only [List.cons_append, processAttributeOps]
    cases happ : applyAttributeOp pid d p with
    | error e => simp only [happ, errBind]
    | ok d' =>
      simp only [happ, okBind]
      exact ih d'

/-- Replacing one variant operation by a pointwise-equivalent one does
not change the variants loop. -/
theorem processVariantOps_congr (pid : Int) (op1 op2 : VariantOp)
    (h : ∀ d, applyVariantOp pid d op1 = applyVariantOp pid d op2)
    (pre post : List VariantOp) :
    ∀ d, processVariantOps pid d (pre ++ op1 :: post) =
      processVariantOps pid d (pre ++ op2 :: post) := by
  induction pre with
  | nil =>
    intro d
    simp only [List.nil_append, processVariantOps, h d]
  | cons p ps ih =>
    intro d
    simp only [List.cons_append, processVariantOps]
    cases happ : applyVariantOp pid d p with
    | error e => simp only [happ, errBind]
    | ok d' =>
      simp only [happ, okBind]
      exact ih d'

/-- C7: an attribute or variant element with no `_action` field is
treated exactly as `_action: "create"` — at the level of the single
operation (same effect on any state, namely appending one fresh child
row and leaving every existing row untouched) and at the level of whole
`updateProductService` calls containing the element anywhere in the
batch. -/
theorem C7_missing_action_defaults_to_create (db : DB) (pid : Int)
    (i : Option Int) (k v : Option String)
    (vn vt : Option String) (cp : Option Rat) (vs : Option Int)
    (upd : UpdateData) (pre post : List AttrOp) (vpre vpost : List VariantOp)
    (files : List String) (itd : Option (List String)) :
    (applyAttributeOp pid db ⟨i, k, v, none⟩ =
      applyAttributeOp pid db ⟨i, k, v, some "create"⟩) ∧
    (applyAttributeOp pid db ⟨i, k, v, none⟩ =
      .ok { db with
        productAttribute := db.productAttribute ++
          [ProductAttributeRow.mk db.nextAttrId pid k v false]
        nextAttrId := db.nextAttrId + 1 }) ∧
    (applyVariantOp pid db ⟨i, vn, vt, cp, vs, none⟩ =
      applyVariantOp pid db ⟨i, vn, vt, cp, vs, some "create"⟩) ∧
    (applyVariantOp pid db ⟨i, vn, vt, cp, vs, none⟩ =
      .ok { db with
        productVariant := db.productVariant ++
          [ProductVariantRow.mk db.nextVariantId pid vn vt cp vs false]
        nextVariantId := db.nextVariantId + 1 }) ∧
    (updateProductService db pid
        { upd with Attributes := some (pre ++ ⟨i, k, v, none⟩ :: post) } files itd =
      updateProductService db pid
        { upd with Attributes := some (pre ++ ⟨i, k, v, some "create"⟩ :: post) } files itd) ∧
    (updateProductService db pid
        { upd with Variants := some (vpre ++ ⟨i, vn, vt, cp, vs, none⟩ :: vpost) } files itd =
      updateProductService db pid
        { upd with Variants := some (vpre ++ ⟨i, vn, vt, cp, vs, some "create"⟩ :: vpost) } files itd) := by
  refine ⟨rfl, rfl, rfl, rfl, ?_, ?_⟩
  · have hop : ∀ d, applyAttributeOp pid d ⟨i, k, v, none⟩ =
        applyAttributeOp pid d ⟨i, k, v, some "create"⟩ := fun _ => rfl
    have hproc := processAttributeOps_congr pid _ _ hop pre post
    obtain ⟨n, dsc, pr, st, ms, cid, sid, cust, attrs, vars⟩ := upd
    unfold updateProductService updateProductPreChecks updateProductTx
      txUpdateProductFields updatedProductRow
    dsimp only
    simp only [hproc]
  · have hop : ∀ d, applyVariantOp pid d ⟨i, vn, vt, cp, vs, none⟩ =
        applyVariantOp pid d ⟨i, vn, vt, cp, vs, some "create"⟩ := fun _ => rfl
    have hproc := processVariantOps_congr pid _ _ hop vpre vpost
    obtain ⟨n, dsc, pr, st, ms, cid, sid, cust, attrs, vars⟩ := upd
    unfold updateProductService updateProductPreChecks updateProductTx
      txUpdateProductFields updatedProductRow
    dsimp only
    simp only [hproc]


/-- Validation outcome is unchanged when a Price string of numeric shape
is replaced by the number it denotes. -/
theorem validate_price_str_num (b : UpdateData) (s : String) (q : Rat)
    (hshape : joiNumericShape s = true) (hq : parseFloatJS s = some q) :
    validateUpdateProductBody { b with Price := some (.str s) } =
      validateUpdateProductBody { b with Price := some (.num q) } := by
  obtain ⟨n, dsc, pr, st, ms, cid, sid, cust, attrs, vars⟩ := b
  have hnum : joiNumberOk false 0 (.str s) = joiNumberOk false 0 (.num q) := by
    simp [joiNumberOk, joiCoerceNumber, hshape, hq]
  simp only [validateUpdateProductBody]
  rw [hnum]

/-- The stored result of `updateProductService` is unchanged when a
Price string is replaced by the number `parseFloat` extracts from it:
the service coerces with exactly that function. -/
theorem service_price_str_num (db : DB) (pid : Int) (b : UpdateData)
    (files : List String) (itd : Option (List String)) (s : String) (q : Rat)
    (hq : parseFloatJS s = some q) :
    updateProductService db pid { b with Price := some (.str s) } files itd =
      updateProductService db pid { b with Price := some (.num q) } files itd := by
  have hprep : prepFloat (.str s) = prepFloat (.num q) := by
    simp [prepFloat, coerceFloatField, hq]
  obtain ⟨n, dsc, pr, st, ms, cid, sid, cust, attrs, vars⟩ := b
  unfold updateProductService updateProductPreChecks updateProductTx
    txUpdateProductFields updatedProductRow
  dsimp only
  simp only [hprep]

/-- C6: submitting `Price` as the numeric string "s" and as the number
it denotes produce identical endpoint results (hence identical stored
values), and submitting `Price: "abc"` fails validation with an error
before any mutation — the state returned is exactly the input state. -/
theorem C6_price_coercion (db : DB) (pid : Int) (body : UpdateData)
    (files : List String) (itd : Option (List String)) (s : String) (q : Rat)
    (hshape : joiNumericShape s = true) (hq : parseFloatJS s = some q) :
    (updateProductEndpoint db pid { body with Price := some (.str s) } files itd =
      updateProductEndpoint db pid { body with Price := some (.num q) } files itd) ∧
    (∀ (db2 : DB) (pid2 : Int) (body2 : UpdateData) (files2 : List String)
        (itd2 : Option (List String)),
      updateProductEndpoint db2 pid2 { body2 with Price := some (.str "abc") } files2 itd2 =
        (.error .validationFailed, db2)) := by
  constructor
  · unfold updateProductEndpoint
    rw [validate_price_str_num body s q hshape hq]
    cases hv : validateUpdateProductBody { body with Price := some (.num q) } with
    | false => simp [hv]
    | true =>
      simp only [hv, if_true]
      exact service_price_str_num db pid body files itd s q hq
  · intro db2 pid2 body2 files2 itd2
    obtain ⟨n, dsc, pr, st, ms, cid, sid, cust, attrs, vars⟩ := body2
    have hsh : joiNumericShape "abc" = false := by decide
    have habc : validateUpdateProductBody
        ⟨n, dsc, some (.str "abc"), st, ms, cid, sid, cust, attrs, vars⟩ = false := by
      simp [validateUpdateProductBody, joiNumberOk, joiCoerceNumber, hsh]
    unfold updateProductEndpoint
    simp [habc]

/-- Evaluation of `parseFloat` on the concrete string "29.99". -/
theorem parseFloat_29_99 : parseFloatJS "29.99" = some (2999 / 100) := by
  have h0 : "29.99".toList = ['2', '9', '.', '9', '9'] := by decide
  have h1 : List.dropWhile isWsChar ['2', '9', '.', '9', '9'] =
      ['2', '9', '.', '9', '9'] := by decide
  have h2 : dropSign ['2', '9', '.', '9', '9'] = ['2', '9', '.', '9', '9'] := by decide
  have h3 : List.takeWhile isDigitChar ['2', '9', '.', '9', '9'] = ['2', '9'] := by decide
  have h4 : List.dropWhile isDigitChar ['2', '9', '.', '9', '9'] =
      ['.', '9', '9'] := by decide
  have h5 : List.takeWhile isDigitChar ['9', '9'] = ['9', '9'] := by decide
  have h6 : List.dropWhile isDigitChar ['9', '9'] = [] := by decide
  have h7 : digitsToNat ['2', '9'] 0 = 29 := by decide
  have h8 : digitsToNat ['9', '9'] 0 = 99 := by decide
  have h9 : parseExponent [] = 0 := by decide
  simp only [parseFloatJS, h0, h1, h2, h3, h4, h5, h6, h7, h8, h9]
  norm_num [pow10]
  rfl

/-- Witness for C6: the concrete string "29.99" and the number 29.99
produce the same endpoint result on a concrete database. -/
theorem C6_price_coercion_witness :
    updateProductEndpoint (⟨[pShirt], [], [], [], [catElectronics], [], 300, 300, 300⟩ : DB) 1
        { UpdateData.empty with Price := some (.str "29.99") } [] none =
      updateProductEndpoint (⟨[pShirt], [], [], [], [catElectronics], [], 300, 300, 300⟩ : DB) 1
        { UpdateData.empty with Price := some (.num (2999 / 100)) } [] none :=
  (C6_price_coercion (⟨[pShirt], [], [], [], [catElectronics], [], 300, 300, 300⟩ : DB) 1
    UpdateData.empty [] none "29.99" (2999 / 100) (by decide) parseFloat_29_99).1

end AdminServer
